import Mathlib

/-
A shallow embedding of packages/react-meteor-data/ReactMeteorData.jsx
(class MeteorDataManager together with the slice of the Tracker runtime it
touches), and proofs of its merge, lifecycle and error-containment
properties.

Conventions of the embedding:
  - A JavaScript value is observed by this code only as undefined, null,
    a primitive, or a plain object with string keys; objects are modelled
    as association lists (real JS objects never hold a duplicate key, so
    theorems about user-supplied snapshots carry a Nodup hypothesis).
  - The Tracker runtime is modelled by a fresh-id counter and the list of
    ids of computations that have been created and not yet stopped; an
    invalidation of a stopped computation never reruns its body, so the
    invalidation transition fires only on live ids.
  - console.error / console.warn messages are accumulated in a log list.
  - The Mongo cursor warning of lines 97-107 is warning-only and values of
    the abstract type V carry no cursor marker, so that loop is omitted.
-/

namespace ReactMeteorData

/-- A JavaScript value as observed by this package: undefined, null, a
primitive value, or a plain object with string keys. -/
inductive JsVal (V : Type) where
  | undef
  | null
  | prim (v : V)
  | obj (entries : List (String × V))

/-- Own-property lookup in a JS object; the first binding wins (a real JS
object never holds a duplicate key). -/
def getk {V : Type} : List (String × V) → String → Option V
  | [], _ => none
  | (k0, v0) :: rest, k => if k0 = k then some v0 else getk rest k

/-- Property write, as in the assignment on source line 120: overwrite in
place when the key is present, append otherwise. -/
def setk {V : Type} : List (String × V) → String → V → List (String × V)
  | [], k, v => [(k, v)]
  | (k0, v0) :: rest, k, v =>
      if k0 = k then (k, v) :: rest else (k0, v0) :: setk rest k v

/-- Property delete, as in the delete statement on source line 130. -/
def delk {V : Type} : List (String × V) → String → List (String × V)
  | [], _ => []
  | (k0, v0) :: rest, k => if k0 = k then delk rest k else (k0, v0) :: delk rest k

/-- The own enumerable keys of a JS object. -/
def keysOf {V : Type} (d : List (String × V)) : List String := d.map Prod.fst

/-- Message of the TypeError raised by the JS in operator when its right
operand is not an object. -/
def inOpErrMsg : String := "TypeError: cannot use the in operator to search in a non-object"

/-- The JS `k in v` test used on source line 129: own-property test on an
object, a TypeError on undefined, null or a primitive. -/
def jsIn {V : Type} (k : String) (v : JsVal V) : Except String Bool :=
  match v with
  | JsVal.obj m => Except.ok (getk m k).isSome
  | _ => Except.error inOpErrMsg

/-- The write loop of updateData (source lines 119-121) over the entries
of the new snapshot. -/
def writeLoop {V : Type} : List (String × V) → List (String × V) → List (String × V)
  | d, [] => d
  | d, (k, v) :: rest => writeLoop (setk d k v) rest

/-- The write loop applied to a general JS value: for-in over undefined,
null or a primitive yields no keys. -/
def writeAll {V : Type} (d : List (String × V)) : JsVal V → List (String × V)
  | JsVal.obj m => writeLoop d m
  | _ => d

/-- The delete loop of updateData (source lines 127-133): each key of the
previous snapshot is deleted from the data unless it is in newData; the
in operator can throw, which aborts the loop with the deletions performed
so far already applied. -/
def deleteLoop {V : Type} (newData : JsVal V) :
    List String → List (String × V) → List (String × V) × Option String
  | [], d => (d, none)
  | k :: rest, d =>
    match jsIn k newData with
    | Except.error e => (d, some e)
    | Except.ok true => deleteLoop newData rest d
    | Except.ok false => deleteLoop newData rest (delk d k)

/-- The value the manager stores in this.oldData (line 134).  Initially
null; after a call it is the (possibly replaced) newData value.  A stored
null is falsy so the line 127 guard skips the delete loop; a stored
primitive is keyless so the loop body never runs; both are therefore
collapsed to none, and only a stored object (always truthy, even when
empty) is kept. -/
def objSnap {V : Type} : JsVal V → Option (List (String × V))
  | JsVal.obj m => some m
  | _ => none

/-- The component mutator slot: either the original setState of the host
component (distinguished by an id) or the endless-loop guard installed on
source lines 53-61. -/
inductive SetStateVal where
  | original (id : Nat)
  | guard

/-- Message of the error thrown by the guard mutator (source lines 54-60). -/
def endlessLoopMsg : String :=
  "cannot call setState inside getMeteorData as this could cause an endless loop"

/-- Message of the validation error thrown on source line 65. -/
def expectedObjMsg : String := "Expected object returned from getMeteorData"

/-- Prefix of the console.error call on source line 75. -/
def errHead : String := "Exception from withTracker getMeteorData function: "

/-- Message of an exception raised by the user fetch function itself. -/
def throwMsg : String := "Exception thrown by getMeteorData"

/-- A user-supplied getMeteorData function, abstracted by its observable
behaviour during one invocation: return a value, throw, or call the
component mutator currently installed and, should that call return, go on
to return a value. -/
inductive FetchFn (V : Type) where
  | returnsVal (v : JsVal V)
  | throws
  | callsSetState (thenReturns : JsVal V)

/-- Run the fetch function with the given mutator installed on the
component: calling the guard mutator throws the endless-loop error. -/
def runFetch {V : Type} (ss : SetStateVal) : FetchFn V → Except String (JsVal V)
  | FetchFn.returnsVal v => Except.ok v
  | FetchFn.throws => Except.error throwMsg
  | FetchFn.callsSetState v =>
      match ss with
      | SetStateVal.guard => Except.error endlessLoopMsg
      | SetStateVal.original _ => Except.ok v

/-- Combined state of one MeteorDataManager, its host component, and the
part of the Tracker runtime it touches. -/
structure Sys (V : Type) where
  data : List (String × V)
  failedToGetData : Bool
  setState : SetStateVal
  getMeteorData : Option (FetchFn V)
  forceUpdates : Nat
  computation : Option Nat
  oldData : Option (List (String × V))
  nextCompId : Nat
  liveComps : List Nat
  isServer : Bool
  log : List String

/-- MeteorDataManager.updateData (source lines 112-136).  Returns the new
state and, when the delete loop raised, the message of the exception that
escaped (the writes and the deletions performed before the raise are then
already visible in the state, and neither this.oldData nor the failure
flag has been assigned). -/
def updateData {V : Type} (s : Sys V) (newData0 : JsVal V) : Sys V × Option String :=
  let failedToGetData : Bool :=
    match newData0 with
    | JsVal.undef => true
    | _ => false
  let newData : JsVal V := if failedToGetData then JsVal.obj [] else newData0
  let data1 := writeAll s.data newData
  match s.oldData with
  | some old =>
      match deleteLoop newData (keysOf old) data1 with
      | (d, some e) => ({ s with data := d }, some e)
      | (d, none) =>
          ({ s with data := d, oldData := objSnap newData,
                    failedToGetData := failedToGetData }, none)
  | none =>
      ({ s with data := data1, oldData := objSnap newData,
                failedToGetData := failedToGetData }, none)

/-- MeteorDataManager.dispose (source lines 17-22): stop the live
computation if any and clear the slot. -/
def dispose {V : Type} (s : Sys V) : Sys V :=
  match s.computation with
  | some c => { s with liveComps := s.liveComps.erase c, computation := none }
  | none => s

/-- First run of the autorun body (source lines 50-79): run the fetch
with the mutator that is installed, validate that the result is a truthy
object, and on any exception log it and fall back to undefined. -/
def fetchAndLog {V : Type} (fetch : FetchFn V) (installed : SetStateVal)
    (log : List String) : JsVal V × List String :=
  match runFetch installed fetch with
  | Except.ok (JsVal.obj m) => (JsVal.obj m, log)
  | Except.ok _ => (JsVal.undef, log ++ [errHead ++ expectedObjMsg])
  | Except.error e => (JsVal.undef, log ++ [errHead ++ e])

/-- MeteorDataManager.calculateData (source lines 24-110).  Returns the
new state and the outcome: in client mode every exception from the fetch
is caught inside the autorun, so the outcome is always ok (an object or
undefined); in server mode the fetch is invoked directly with no try
around it (line 34), so an exception propagates to the caller while the
state is left untouched. -/
def calculateData {V : Type} (s : Sys V) : Sys V × Except String (JsVal V) :=
  match s.getMeteorData with
  | none => (s, Except.ok JsVal.null)
  | some fetch =>
    if s.isServer then
      (s, runFetch s.setState fetch)
    else
      -- lines 37-40: stop and clear an existing computation
      let s1 : Sys V :=
        match s.computation with
        | some c => { s with liveComps := s.liveComps.erase c, computation := none }
        | none => s
      -- lines 48-95: Tracker.nonreactive (Tracker.autorun body); the
      -- first run of the body executes synchronously inside autorun:
      -- save the mutator, install the guard, fetch, restore the mutator
      let saved := s1.setState
      let s2 : Sys V := { s1 with setState := SetStateVal.guard }
      let r := fetchAndLog fetch s2.setState s2.log
      let s3 : Sys V := { s2 with setState := saved, log := r.2 }
      -- the new computation is registered as live and stored (line 48)
      let cid := s1.nextCompId
      ({ s3 with computation := some cid,
                 liveComps := s3.liveComps ++ [cid],
                 nextCompId := cid + 1 }, Except.ok r.1)

/-- A tracked dependency of computation c changes: Tracker reruns the
body of c at flush time iff c has not been stopped.  The non-first run
(source lines 80-93) stops c and calls component.forceUpdate(); it does
not clear this.computation, which keeps a stale pointer to the stopped
computation. -/
def invalidate {V : Type} (s : Sys V) (c : Nat) : Sys V :=
  if c ∈ s.liveComps then
    { s with liveComps := s.liveComps.erase c, forceUpdates := s.forceUpdates + 1 }
  else s

/-- State right after the constructor (source lines 11-15) and the
componentWillMount assignment of an empty data object (line 141), before
the first calculateData. -/
def initSys {V : Type} (g : Option (FetchFn V)) (srv : Bool) : Sys V :=
  { data := [], failedToGetData := false, setState := SetStateVal.original 0,
    getMeteorData := g, forceUpdates := 0, computation := none,
    oldData := none, nextCompId := 0, liveComps := [], isServer := srv,
    log := [] }

/-- The operations the host lifecycle and the Tracker runtime can apply
to a manager. -/
inductive Op (V : Type) where
  | calcData
  | disp
  | inval (c : Nat)
  | update (v : JsVal V)

def applyOp {V : Type} (s : Sys V) : Op V → Sys V
  | Op.calcData => (calculateData s).1
  | Op.disp => dispose s
  | Op.inval c => invalidate s c
  | Op.update v => (updateData s v).1

def applyOps {V : Type} (s : Sys V) (ops : List (Op V)) : Sys V :=
  ops.foldl applyOp s

/-- One recomputation round as driven by componentWillMount and
componentWillUpdate (source lines 140-168): calculateData followed by
updateData on its result; a server-mode fetch exception skips updateData. -/
def roundS {V : Type} (s : Sys V) : Sys V :=
  match calculateData s with
  | (s1, Except.ok v) => (updateData s1 v).1
  | (s1, Except.error _) => s1

def roundsS {V : Type} : Nat → Sys V → Sys V
  | 0, s => s
  | n + 1, s => roundsS n (roundS s)

/-- The at-most-one-live-computation invariant: either no computation
created by this manager is live, or exactly one is and it is the one
stored in this.computation. -/
def Inv {V : Type} (s : Sys V) : Prop :=
  s.liveComps = [] ∨ ∃ c, s.liveComps = [c] ∧ s.computation = some c

/-- The live-computation set the client branch of calculateData starts
from: the stored computation, if any, is stopped (source lines 37-40). -/
def stoppedLive {V : Type} (s : Sys V) : List Nat :=
  match s.computation with
  | some c => s.liveComps.erase c
  | none => s.liveComps

/-- A key is mentioned by a snapshot value iff the value is an object
having that key among its own keys. -/
def keyMentioned {V : Type} (k : String) : JsVal V → Prop
  | JsVal.obj m => k ∈ keysOf m
  | _ => False

/-! Basic lemmas about the JS-object operations. -/

@[simp] theorem getk_nil {V : Type} (k : String) :
    getk ([] : List (String × V)) k = none := rfl

@[simp] theorem getk_cons {V : Type} (k0 : String) (v0 : V)
    (rest : List (String × V)) (k : String) :
    getk ((k0, v0) :: rest) k = if k0 = k then some v0 else getk rest k := rfl

theorem getk_setk {V : Type} :
    ∀ (d : List (String × V)) (k k0 : String) (v : V),
      getk (setk d k v) k0 = if k = k0 then some v else getk d k0 := by
  intro d
  induction d with
  | nil => intro k k0 v; simp [setk, getk]
  | cons e rest ih =>
    obtain ⟨k1, v1⟩ := e
    intro k k0 v
    by_cases h1 : k1 = k
    · subst h1
      by_cases h0 : k1 = k0 <;> simp [setk, getk, h0]
    · by_cases h0 : k1 = k0
      · have hk : ¬ k = k0 := fun hh => h1 (h0.trans hh.symm)
        have hk2 : ¬ k0 = k := fun hh => hk hh.symm
        simp [setk, getk, h1, h0, hk, hk2]
      · simp [setk, getk, h1, h0, ih]

theorem getk_delk {V : Type} :
    ∀ (d : List (String × V)) (k k0 : String),
      getk (delk d k) k0 = if k = k0 then none else getk d k0 := by
  intro d
  induction d with
  | nil => intro k k0; by_cases h : k = k0 <;> simp [delk, h]
  | cons e rest ih =>
    obtain ⟨k1, v1⟩ := e
    intro k k0
    by_cases h1 : k1 = k
    · subst h1
      by_cases h0 : k1 = k0
      · subst h0; simp [delk, ih]
      · simp [delk, getk, h0, ih]
    · by_cases h0 : k1 = k0
      · have hk : ¬ k = k0 := fun hh => h1 (h0.trans hh.symm)
        have hk2 : ¬ k0 = k := fun hh => hk hh.symm
        simp [delk, getk, h1, h0, hk, hk2]
      · simp [delk, getk, h1, h0, ih]

theorem getk_eq_none_of_not_mem {V : Type} :
    ∀ (m : List (String × V)) (k : String), k ∉ keysOf m → getk m k = none := by
  intro m
  induction m with
  | nil => intro k _; rfl
  | cons e rest ih =>
    obtain ⟨k1, v1⟩ := e
    intro k hk
    simp only [keysOf, List.map_cons, List.mem_cons] at hk
    push_neg at hk
    have h1 : ¬ k1 = k := fun hh => hk.1 hh.symm
    simp [getk, h1, ih k (by simpa [keysOf] using hk.2)]

theorem mem_keysOf_of_getk {V : Type} :
    ∀ (m : List (String × V)) (k : String), (getk m k).isSome → k ∈ keysOf m := by
  intro m
  induction m with
  | nil => intro k h; simp [getk] at h
  | cons e rest ih =>
    obtain ⟨k1, v1⟩ := e
    intro k h
    by_cases h1 : k1 = k
    · simp [keysOf, h1]
    · simp only [getk_cons, if_neg h1] at h
      simp [keysOf, List.mem_cons]
      right
      simpa [keysOf] using ih k h

theorem getk_writeLoop {V : Type} :
    ∀ (m d : List (String × V)) (k : String), (keysOf m).Nodup →
      getk (writeLoop d m) k =
        match getk m k with
        | some v => some v
        | none => getk d k := by
  intro m
  induction m with
  | nil => intro d k _; simp [writeLoop, getk]
  | cons e rest ih =>
    obtain ⟨k1, v1⟩ := e
    intro d k hm
    have hm0 : (k1 :: keysOf rest).Nodup := by
      simpa only [keysOf, List.map_cons] using hm
    have hm1 : k1 ∉ keysOf rest := (List.nodup_cons.mp hm0).1
    have hm2 : (keysOf rest).Nodup := (List.nodup_cons.mp hm0).2
    simp only [writeLoop]
    rw [ih (setk d k1 v1) k hm2]
    by_cases h : k1 = k
    · subst h
      have hnone : getk rest k1 = none := getk_eq_none_of_not_mem rest k1 hm1
      simp [getk, hnone, getk_setk]
    · cases hgr : getk rest k <;> simp [getk, h, hgr, getk_setk]

theorem deleteLoop_obj_ok {V : Type} (n : List (String × V)) :
    ∀ (ks : List String) (d : List (String × V)),
      (deleteLoop (JsVal.obj n) ks d).2 = none := by
  intro ks
  induction ks with
  | nil => intro d; rfl
  | cons k1 rest ih =>
    intro d
    cases hb : (getk n k1).isSome <;> simp [deleteLoop, jsIn, hb, ih]

theorem getk_deleteLoop_obj {V : Type} (n : List (String × V)) :
    ∀ (ks : List String) (d : List (String × V)) (k : String),
      getk (deleteLoop (JsVal.obj n) ks d).1 k =
        if k ∈ ks ∧ (getk n k).isSome = false then none else getk d k := by
  intro ks
  induction ks with
  | nil => intro d k; simp [deleteLoop]
  | cons k1 rest ih =>
    intro d k
    cases hb : (getk n k1).isSome
    · rw [show deleteLoop (JsVal.obj n) (k1 :: rest) d
            = deleteLoop (JsVal.obj n) rest (delk d k1) from by
          simp [deleteLoop, jsIn, hb]]
      rw [ih (delk d k1) k]
      by_cases hk : k = k1
      · subst hk
        by_cases hmem : k ∈ rest <;> simp [hmem, hb, getk_delk]
      · have hkk : ¬ k1 = k := fun hh => hk hh.symm
        by_cases hmem : k ∈ rest <;> by_cases hs : (getk n k).isSome <;>
          simp [List.mem_cons, hk, getk_delk, hkk, hmem, hs]
    · rw [show deleteLoop (JsVal.obj n) (k1 :: rest) d
            = deleteLoop (JsVal.obj n) rest d from by
          simp [deleteLoop, jsIn, hb]]
      rw [ih d k]
      by_cases hk : k = k1
      · subst hk
        simp only [List.mem_cons, hb, Bool.true_eq_false, and_false, if_false,
                   true_or, true_and, if_neg]
      · simp only [List.mem_cons, hk, false_or]

/-! Shape of the updateData result: only data, oldData and the failure
flag are ever written; all other fields are untouched. -/

theorem updateData_shape {V : Type} (s : Sys V) (v : JsVal V) :
    ∃ d od fl, (updateData s v).1 =
      { s with data := d, oldData := od, failedToGetData := fl } := by
  simp only [updateData]
  repeat' split
  all_goals exact ⟨_, _, _, rfl⟩

theorem updateData_liveComps {V : Type} (s : Sys V) (v : JsVal V) :
    (updateData s v).1.liveComps = s.liveComps := by
  obtain ⟨d, od, fl, h⟩ := updateData_shape s v
  rw [h]

theorem updateData_computation {V : Type} (s : Sys V) (v : JsVal V) :
    (updateData s v).1.computation = s.computation := by
  obtain ⟨d, od, fl, h⟩ := updateData_shape s v
  rw [h]

/-! Characterizations of calculateData per mode. -/

theorem calculateData_noFetch {V : Type} (s : Sys V)
    (h : s.getMeteorData = none) :
    calculateData s = (s, Except.ok JsVal.null) := by
  simp [calculateData, h]

theorem calculateData_server {V : Type} (s : Sys V) (f : FetchFn V)
    (hg : s.getMeteorData = some f) (hs : s.isServer = true) :
    calculateData s = (s, runFetch s.setState f) := by
  simp [calculateData, hg, hs]

theorem calculateData_client {V : Type} (s : Sys V) (f : FetchFn V)
    (hg : s.getMeteorData = some f) (hs : s.isServer = false) :
    calculateData s =
      ({ data := s.data, failedToGetData := s.failedToGetData,
         setState := s.setState, getMeteorData := s.getMeteorData,
         forceUpdates := s.forceUpdates, computation := some s.nextCompId,
         oldData := s.oldData, nextCompId := s.nextCompId + 1,
         liveComps := stoppedLive s ++ [s.nextCompId], isServer := s.isServer,
         log := (fetchAndLog f SetStateVal.guard s.log).2 },
       Except.ok (fetchAndLog f SetStateVal.guard s.log).1) := by
  cases hc : s.computation <;>
    simp [calculateData, hg, hs, hc, stoppedLive]

/-! Evaluation lemmas for updateData at each input constructor; each is a
definitional unfolding of updateData at that input. -/

theorem updateData_obj_eq {V : Type} (s : Sys V) (n : List (String × V)) :
    updateData s (JsVal.obj n) =
      match s.oldData with
      | some old =>
        (match deleteLoop (JsVal.obj n) (keysOf old) (writeLoop s.data n) with
         | (d, some e) => ({ s with data := d }, some e)
         | (d, none) =>
             ({ s with data := d, oldData := some n,
                       failedToGetData := false }, none))
      | none =>
          ({ s with data := writeLoop s.data n, oldData := some n,
                    failedToGetData := false }, none) := rfl

theorem updateData_undef_eq {V : Type} (s : Sys V) :
    updateData s JsVal.undef =
      match s.oldData with
      | some old =>
        (match deleteLoop (JsVal.obj []) (keysOf old) s.data with
         | (d, some e) => ({ s with data := d }, some e)
         | (d, none) =>
             ({ s with data := d, oldData := some ([] : List (String × V)),
                       failedToGetData := true }, none))
      | none =>
          ({ s with oldData := some ([] : List (String × V)),
                    failedToGetData := true }, none) := rfl

theorem updateData_null_eq {V : Type} (s : Sys V) :
    updateData s JsVal.null =
      match s.oldData with
      | some old =>
        (match deleteLoop JsVal.null (keysOf old) s.data with
         | (d, some e) => ({ s with data := d }, some e)
         | (d, none) =>
             ({ s with data := d, oldData := none,
                       failedToGetData := false }, none))
      | none =>
          ({ s with oldData := none, failedToGetData := false }, none) := rfl

theorem updateData_prim_eq {V : Type} (s : Sys V) (w : V) :
    updateData s (JsVal.prim w) =
      match s.oldData with
      | some old =>
        (match deleteLoop (JsVal.prim w) (keysOf old) s.data with
         | (d, some e) => ({ s with data := d }, some e)
         | (d, none) =>
             ({ s with data := d, oldData := none,
                       failedToGetData := false }, none))
      | none =>
          ({ s with oldData := none, failedToGetData := false }, none) := rfl

theorem deleteLoop_nil_eq {V : Type} (v : JsVal V) (d : List (String × V)) :
    deleteLoop v [] d = (d, none) := rfl

theorem deleteLoop_notObj_cons {V : Type} (v : JsVal V) (hv : objSnap v = none)
    (k : String) (ks : List String) (d : List (String × V)) :
    deleteLoop v (k :: ks) d = (d, some inOpErrMsg) := by
  cases v <;> first
    | rfl
    | simp [objSnap] at hv

/-! Characterizations of updateData used by the claims. -/

theorem updateData_obj_basic {V : Type} (s : Sys V) (n : List (String × V)) :
    (updateData s (JsVal.obj n)).2 = none ∧
    (updateData s (JsVal.obj n)).1.oldData = some n ∧
    (updateData s (JsVal.obj n)).1.failedToGetData = false := by
  rw [updateData_obj_eq]
  cases hold : s.oldData with
  | none => exact ⟨rfl, rfl, rfl⟩
  | some old =>
    dsimp only
    rcases hdel : deleteLoop (JsVal.obj n) (keysOf old) (writeLoop s.data n)
      with ⟨d2, e2⟩
    have h0 := deleteLoop_obj_ok n (keysOf old) (writeLoop s.data n)
    rw [hdel] at h0
    cases e2 with
    | none => exact ⟨rfl, rfl, rfl⟩
    | some e => exact absurd h0 (by simp)

theorem updateData_undef_basic {V : Type} (s : Sys V) :
    (updateData s JsVal.undef).2 = none ∧
    (updateData s JsVal.undef).1.oldData = some ([] : List (String × V)) ∧
    (updateData s JsVal.undef).1.failedToGetData = true := by
  rw [updateData_undef_eq]
  cases hold : s.oldData with
  | none => exact ⟨rfl, rfl, rfl⟩
  | some old =>
    dsimp only
    rcases hdel : deleteLoop (JsVal.obj ([] : List (String × V))) (keysOf old) s.data
      with ⟨d2, e2⟩
    have h0 := deleteLoop_obj_ok ([] : List (String × V)) (keysOf old) s.data
    rw [hdel] at h0
    cases e2 with
    | none => exact ⟨rfl, rfl, rfl⟩
    | some e => exact absurd h0 (by simp)

theorem updateData_null_noOld {V : Type} (s : Sys V) (h : s.oldData = none) :
    updateData s JsVal.null =
      ({ s with oldData := none, failedToGetData := false }, none) := by
  rw [updateData_null_eq, h]

theorem getk_updateData_obj {V : Type} (s : Sys V) (n : List (String × V))
    (k : String) (hn : (keysOf n).Nodup) :
    getk (updateData s (JsVal.obj n)).1.data k =
      match getk n k with
      | some v => some v
      | none =>
        match s.oldData with
        | some old => if k ∈ keysOf old then none else getk s.data k
        | none => getk s.data k := by
  rw [updateData_obj_eq]
  cases hold : s.oldData with
  | none =>
    show getk (writeLoop s.data n) k = _
    rw [getk_writeLoop n s.data k hn]
  | some old =>
    dsimp only
    rcases hdel : deleteLoop (JsVal.obj n) (keysOf old) (writeLoop s.data n)
      with ⟨d2, e2⟩
    have h0 := deleteLoop_obj_ok n (keysOf old) (writeLoop s.data n)
    rw [hdel] at h0
    cases e2 with
    | some e => exact absurd h0 (by simp)
    | none =>
      show getk d2 k = _
      have h1 := getk_deleteLoop_obj n (keysOf old) (writeLoop s.data n) k
      rw [hdel] at h1
      rw [show getk d2 k = getk (d2, (none : Option String)).1 k from rfl, h1,
          getk_writeLoop n s.data k hn]
      cases hg : getk n k with
      | some v => simp
      | none =>
        by_cases hmem : k ∈ keysOf old <;> simp [hmem]

theorem getk_writeLoop_not_mem {V : Type} :
    ∀ (m d : List (String × V)) (k : String), k ∉ keysOf m →
      getk (writeLoop d m) k = getk d k := by
  intro m
  induction m with
  | nil => intro d k _; rfl
  | cons e rest ih =>
    obtain ⟨k1, v1⟩ := e
    intro d k hk
    simp only [keysOf, List.map_cons, List.mem_cons] at hk
    push_neg at hk
    have h1 : ¬ k1 = k := fun hh => hk.1 hh.symm
    rw [show writeLoop d ((k1, v1) :: rest) = writeLoop (setk d k1 v1) rest from rfl]
    rw [ih (setk d k1 v1) k (by simpa [keysOf] using hk.2), getk_setk, if_neg h1]

theorem getk_writeLoop_isSome {V : Type} :
    ∀ (m d : List (String × V)) (k : String), (getk d k).isSome = true →
      (getk (writeLoop d m) k).isSome = true := by
  intro m
  induction m with
  | nil => intro d k h; exact h
  | cons e rest ih =>
    obtain ⟨k1, v1⟩ := e
    intro d k h
    rw [show writeLoop d ((k1, v1) :: rest) = writeLoop (setk d k1 v1) rest from rfl]
    apply ih
    rw [getk_setk]
    by_cases h1 : k1 = k
    · simp [h1]
    · rw [if_neg h1]; exact h

/-! The at-most-one-live-computation invariant is preserved by every
operation. -/

theorem stoppedLive_of_Inv {V : Type} (s : Sys V) (h : Inv s) :
    stoppedLive s = [] := by
  rcases h with h | ⟨c, hc, hcomp⟩
  · unfold stoppedLive
    cases s.computation <;> simp [h]
  · unfold stoppedLive
    rw [hcomp, hc]
    simp

theorem Inv_initSys {V : Type} (g : Option (FetchFn V)) (srv : Bool) :
    Inv (initSys g srv) := Or.inl rfl

theorem Inv_calculateData {V : Type} (s : Sys V) (h : Inv s) :
    Inv (calculateData s).1 := by
  cases hg : s.getMeteorData with
  | none => rw [calculateData_noFetch s hg]; exact h
  | some f =>
    cases hs : s.isServer
    · rw [calculateData_client s f hg hs]
      right
      refine ⟨s.nextCompId, ?_, rfl⟩
      show stoppedLive s ++ [s.nextCompId] = [s.nextCompId]
      rw [stoppedLive_of_Inv s h]
      rfl
    · rw [calculateData_server s f hg hs]
      exact h

theorem Inv_dispose {V : Type} (s : Sys V) (h : Inv s) : Inv (dispose s) := by
  unfold dispose
  cases hc : s.computation with
  | none => exact h
  | some c =>
    left
    rcases h with h | ⟨c2, hc2, hcomp⟩
    · simp [h]
    · rw [hc] at hcomp
      have : c = c2 := Option.some.inj hcomp
      subst this
      rw [hc2]
      simp

theorem Inv_invalidate {V : Type} (s : Sys V) (c : Nat) (h : Inv s) :
    Inv (invalidate s c) := by
  unfold invalidate
  by_cases hmem : c ∈ s.liveComps
  · rw [if_pos hmem]
    left
    rcases h with h | ⟨c2, hc2, hcomp⟩
    · rw [h] at hmem; simp at hmem
    · rw [hc2] at hmem ⊢
      have : c = c2 := by simpa using hmem
      subst this
      simp
  · rw [if_neg hmem]
    exact h

theorem Inv_updateData {V : Type} (s : Sys V) (v : JsVal V) (h : Inv s) :
    Inv (updateData s v).1 := by
  unfold Inv
  rw [updateData_liveComps, updateData_computation]
  exact h

theorem Inv_applyOp {V : Type} (s : Sys V) (op : Op V) (h : Inv s) :
    Inv (applyOp s op) := by
  cases op with
  | calcData => exact Inv_calculateData s h
  | disp => exact Inv_dispose s h
  | inval c => exact Inv_invalidate s c h
  | update v => exact Inv_updateData s v h

theorem Inv_applyOps {V : Type} :
    ∀ (ops : List (Op V)) (s : Sys V), Inv s → Inv (applyOps s ops) := by
  intro ops
  induction ops with
  | nil => intro s h; exact h
  | cons op rest ih => intro s h; exact ih (applyOp s op) (Inv_applyOp s op h)

/-! Further helper lemmas on calculateData, dispose and invalidate. -/

theorem fetchAndLog_fst {V : Type} (f : FetchFn V) (ss : SetStateVal)
    (log1 log2 : List String) :
    (fetchAndLog f ss log1).1 = (fetchAndLog f ss log2).1 := by
  unfold fetchAndLog
  cases runFetch ss f with
  | ok v => cases v <;> rfl
  | error e => rfl

theorem dispose_forceUpdates {V : Type} (s : Sys V) :
    (dispose s).forceUpdates = s.forceUpdates := by
  unfold dispose
  cases s.computation <;> rfl

theorem dispose_liveComps_of_Inv {V : Type} (s : Sys V) (h : Inv s) :
    (dispose s).liveComps = [] := by
  unfold dispose
  cases hc : s.computation with
  | none =>
    rcases h with h | ⟨c2, hc2, hcomp⟩
    · exact h
    · rw [hc] at hcomp; exact absurd hcomp (by simp)
  | some c =>
    rcases h with h | ⟨c2, hc2, hcomp⟩
    · simp [h]
    · rw [hc] at hcomp
      have : c = c2 := Option.some.inj hcomp
      subst this
      rw [hc2]
      simp

theorem invalidate_of_empty {V : Type} (s : Sys V) (c : Nat)
    (h : s.liveComps = []) : invalidate s c = s := by
  unfold invalidate
  rw [if_neg (by rw [h]; simp)]

theorem foldl_invalidate_of_empty {V : Type} :
    ∀ (cs : List Nat) (s : Sys V), s.liveComps = [] →
      List.foldl invalidate s cs = s := by
  intro cs
  induction cs with
  | nil => intro s _; rfl
  | cons c rest ih =>
    intro s h
    rw [List.foldl_cons, invalidate_of_empty s c h, ih s h]

theorem roundS_noFetch_fields {V : Type} (s : Sys V)
    (h1 : s.getMeteorData = none) (h2 : s.oldData = none) :
    (roundS s).getMeteorData = none ∧ (roundS s).data = s.data ∧
    (roundS s).failedToGetData = false ∧ (roundS s).oldData = none := by
  unfold roundS
  rw [calculateData_noFetch s h1]
  dsimp only
  rw [updateData_null_noOld s h2]
  exact ⟨h1, rfl, rfl, rfl⟩

/-! The claims. -/

/-- C1: for every two valid snapshots S1 then S2 merged by updateData into
a manager whose stored previous snapshot is null (as after construction),
both calls complete without an exception, and afterwards the component
data mapping binds exactly the keys of S2 to the values of S2; keys of S1
absent from S2 are deleted, and keys mentioned by neither snapshot keep
the value they had before S1. -/
theorem claim_merge_patch_semantics {V : Type} (s : Sys V)
    (n1 n2 : List (String × V)) (k : String) (hold : s.oldData = none)
    (h1 : (keysOf n1).Nodup) (h2 : (keysOf n2).Nodup) :
    (updateData s (JsVal.obj n1)).2 = none ∧
    (updateData (updateData s (JsVal.obj n1)).1 (JsVal.obj n2)).2 = none ∧
    getk (updateData (updateData s (JsVal.obj n1)).1 (JsVal.obj n2)).1.data k =
      match getk n2 k with
      | some v => some v
      | none => if k ∈ keysOf n1 then none else getk s.data k := by
  obtain ⟨hsnd1, hold1, hfl1⟩ := updateData_obj_basic s n1
  refine ⟨hsnd1, (updateData_obj_basic _ n2).1, ?_⟩
  rw [getk_updateData_obj _ n2 k h2, hold1]
  cases hg2 : getk n2 k with
  | some v => rfl
  | none =>
    dsimp only
    by_cases hk1 : k ∈ keysOf n1
    · rw [if_pos hk1, if_pos hk1]
    · rw [if_neg hk1, if_neg hk1, getk_updateData_obj s n1 k h1, hold,
          getk_eq_none_of_not_mem n1 k hk1]

theorem claim_merge_patch_semantics_witness :
    (updateData (initSys (none : Option (FetchFn Nat)) false)
        (JsVal.obj [(("count"), 1)])).2 = none ∧
    (updateData (updateData (initSys (none : Option (FetchFn Nat)) false)
        (JsVal.obj [(("count"), 1)])).1 (JsVal.obj [(("name"), 2)])).2 = none ∧
    getk (updateData (updateData (initSys (none : Option (FetchFn Nat)) false)
        (JsVal.obj [(("count"), 1)])).1 (JsVal.obj [(("name"), 2)])).1.data ("count") =
      match getk [(("name"), 2)] ("count") with
      | some v => some v
      | none =>
          if ("count") ∈ keysOf [(("name"), (2 : Nat))]
          then none
          else getk (initSys (none : Option (FetchFn Nat)) false).data ("count") := by
  have hw := claim_merge_patch_semantics (initSys (none : Option (FetchFn Nat)) false)
    [(("count"), 1)] [(("name"), 2)] ("count") rfl (by decide) (by decide)
  refine ⟨hw.1, hw.2.1, (hw.2.2).trans ?_⟩
  decide

/-- C3: for every manager started fresh and every sequence of operations
(calculateData, dispose, invalidation, updateData), at most one
computation handle created by the manager is live at any instant. -/
theorem claim_at_most_one_computation {V : Type} (g : Option (FetchFn V))
    (srv : Bool) (ops : List (Op V)) :
    ((applyOps (initSys g srv) ops).liveComps).length ≤ 1 := by
  have h := Inv_applyOps ops (initSys g srv) (Inv_initSys g srv)
  rcases h with h | ⟨c, hc, _⟩
  · rw [h]; exact Nat.zero_le 1
  · rw [hc]; exact Nat.le_refl 1

/-- C8: whenever the server flag is true, every call to calculateData
(including two consecutive calls) invokes the fetch function directly
with the currently installed mutator, returns its result, and leaves the
whole state (hence the computation slot and the live set) untouched. -/
theorem claim_server_direct {V : Type} (s : Sys V) (f : FetchFn V)
    (hg : s.getMeteorData = some f) (hs : s.isServer = true) :
    calculateData s = (s, runFetch s.setState f) ∧
    calculateData (calculateData s).1 = (s, runFetch s.setState f) := by
  have h := calculateData_server s f hg hs
  exact ⟨h, by rw [h]; exact h⟩

theorem claim_server_direct_witness :
    calculateData (initSys (some (FetchFn.returnsVal (JsVal.obj [(("a"), 1)])))
        true)
      = (initSys (some (FetchFn.returnsVal (JsVal.obj [(("a"), (1 : Nat))]))) true,
         runFetch (initSys (some (FetchFn.returnsVal (JsVal.obj [(("a"), (1 : Nat))]))) true).setState
           (FetchFn.returnsVal (JsVal.obj [(("a"), 1)]))) ∧
    calculateData (calculateData (initSys (some (FetchFn.returnsVal
        (JsVal.obj [(("a"), (1 : Nat))]))) true)).1
      = (initSys (some (FetchFn.returnsVal (JsVal.obj [(("a"), (1 : Nat))]))) true,
         runFetch (initSys (some (FetchFn.returnsVal (JsVal.obj [(("a"), (1 : Nat))]))) true).setState
           (FetchFn.returnsVal (JsVal.obj [(("a"), 1)]))) :=
  claim_server_direct _ _ rfl rfl

/-- C10: updateData deletes keys only when a previous truthy snapshot
object is stored: when the stored previous snapshot is null (first call
of a manager, or any call right after an updateData(null), which resets
it to null), the call completes, deletes no key of the component data,
and preserves every pre-existing key not overwritten by the new snapshot. -/
theorem claim_no_delete_without_old {V : Type} (s : Sys V) (v : JsVal V)
    (k : String) (h : s.oldData = none) :
    (updateData s v).2 = none ∧
    (¬ keyMentioned k v → getk (updateData s v).1.data k = getk s.data k) ∧
    ((getk s.data k).isSome = true →
      (getk (updateData s v).1.data k).isSome = true) ∧
    (updateData s JsVal.null).1.oldData = none := by
  have hnull : (updateData s JsVal.null).1.oldData = none := by
    rw [updateData_null_noOld s h]
  cases v with
  | undef =>
    rw [updateData_undef_eq, h]
    exact ⟨rfl, fun _ => rfl, fun hh => hh, hnull⟩
  | null =>
    rw [updateData_null_eq, h]
    exact ⟨rfl, fun _ => rfl, fun hh => hh, rfl⟩
  | prim w =>
    rw [updateData_prim_eq, h]
    exact ⟨rfl, fun _ => rfl, fun hh => hh, hnull⟩
  | obj m =>
    rw [updateData_obj_eq, h]
    refine ⟨rfl, ?_, ?_, hnull⟩
    · intro hk
      exact getk_writeLoop_not_mem m s.data k hk
    · intro hh
      exact getk_writeLoop_isSome m s.data k hh

theorem claim_no_delete_without_old_witness :
    (updateData { initSys (none : Option (FetchFn Nat)) false with
        data := [(("x"), 7)] } (JsVal.obj [(("y"), 2)])).2 = none ∧
    (¬ keyMentioned ("x") (JsVal.obj [(("y"), (2 : Nat))]) →
      getk (updateData { initSys (none : Option (FetchFn Nat)) false with
        data := [(("x"), 7)] } (JsVal.obj [(("y"), 2)])).1.data ("x")
        = getk [(("x"), (7 : Nat))] ("x")) ∧
    ((getk [(("x"), (7 : Nat))] ("x")).isSome = true →
      (getk (updateData { initSys (none : Option (FetchFn Nat)) false with
        data := [(("x"), 7)] } (JsVal.obj [(("y"), 2)])).1.data ("x")).isSome = true) ∧
    (updateData { initSys (none : Option (FetchFn Nat)) false with
        data := [(("x"), 7)] } JsVal.null).1.oldData = none :=
  claim_no_delete_without_old _ (JsVal.obj [(("y"), 2)]) ("x") rfl

/-- C2: for every fetch function that throws or returns a non-mapping
(null, undefined or a primitive) in client mode, calculateData catches
the exception inside the tracked computation, appends one message to the
error log, and returns the absence sentinel (undefined) as an ok outcome
— no exception propagates out of calculateData — and the subsequent
updateData on that sentinel completes and sets the failure flag to true. -/
theorem claim_fetch_failure_contained {V : Type} (s : Sys V) (f : FetchFn V)
    (hg : s.getMeteorData = some f) (hs : s.isServer = false)
    (hf : f = FetchFn.throws ∨
          ∃ v, f = FetchFn.returnsVal v ∧ objSnap v = none) :
    (calculateData s).2 = Except.ok JsVal.undef ∧
    (∃ msg, (calculateData s).1.log = s.log ++ [msg]) ∧
    (updateData (calculateData s).1 JsVal.undef).2 = none ∧
    (updateData (calculateData s).1 JsVal.undef).1.failedToGetData = true := by
  have hc := calculateData_client s f hg hs
  have hflag := updateData_undef_basic (calculateData s).1
  have hout : ∃ msg,
      fetchAndLog f SetStateVal.guard s.log = (JsVal.undef, s.log ++ [msg]) := by
    rcases hf with hf | ⟨v, hf, hv⟩
    · subst hf; exact ⟨errHead ++ throwMsg, rfl⟩
    · subst hf
      cases v with
      | undef => exact ⟨errHead ++ expectedObjMsg, rfl⟩
      | null => exact ⟨errHead ++ expectedObjMsg, rfl⟩
      | prim w => exact ⟨errHead ++ expectedObjMsg, rfl⟩
      | obj m => simp [objSnap] at hv
  obtain ⟨msg, hmsg⟩ := hout
  refine ⟨?_, ⟨msg, ?_⟩, hflag.1, hflag.2.2⟩
  · rw [hc]
    dsimp only
    rw [hmsg]
  · rw [hc]
    dsimp only
    rw [hmsg]

theorem claim_fetch_failure_contained_witness :
    (calculateData (initSys (some (FetchFn.throws : FetchFn Nat)) false)).2
      = Except.ok JsVal.undef ∧
    (∃ msg, (calculateData (initSys (some (FetchFn.throws : FetchFn Nat))
        false)).1.log
      = (initSys (some (FetchFn.throws : FetchFn Nat)) false).log ++ [msg]) ∧
    (updateData (calculateData (initSys (some (FetchFn.throws : FetchFn Nat))
        false)).1 JsVal.undef).2 = none ∧
    (updateData (calculateData (initSys (some (FetchFn.throws : FetchFn Nat))
        false)).1 JsVal.undef).1.failedToGetData = true :=
  claim_fetch_failure_contained _ FetchFn.throws rfl rfl (Or.inl rfl)

/-- C4 counterexample: updateData applied to the null sentinel does not
set the failure flag — at a concrete fresh manager the flag comes out
false, where the claim demands true. -/
theorem claim_null_sets_flag_cex :
    (updateData (initSys (none : Option (FetchFn Nat)) false)
        JsVal.null).1.failedToGetData = false ∧
    ¬ ((updateData (initSys (none : Option (FetchFn Nat)) false)
        JsVal.null).1.failedToGetData = true) := by
  decide

/-- C4 (amended): only undefined is treated as the absence sentinel by
updateData: whenever the call completes without an exception, the failure
flag afterwards is true iff the input was undefined; a null input is
merged like an empty mapping but leaves the flag false. -/
theorem claim_failed_iff_undefined {V : Type} (s : Sys V) (v : JsVal V)
    (h : (updateData s v).2 = none) :
    ((updateData s v).1.failedToGetData = true ↔ v = JsVal.undef) := by
  cases v with
  | undef => simp [(updateData_undef_basic s).2.2]
  | obj m => simp [(updateData_obj_basic s m).2.2]
  | null =>
    have hfl : (updateData s JsVal.null).1.failedToGetData = false := by
      rw [updateData_null_eq] at h ⊢
      cases hold : s.oldData with
      | none => rfl
      | some old =>
        rw [hold] at h
        dsimp only at h ⊢
        cases hko : keysOf old with
        | nil => rfl
        | cons k2 ks =>
          rw [hko, deleteLoop_notObj_cons JsVal.null rfl k2 ks s.data] at h
          simp at h
    simp [hfl]
  | prim w =>
    have hfl : (updateData s (JsVal.prim w)).1.failedToGetData = false := by
      rw [updateData_prim_eq] at h ⊢
      cases hold : s.oldData with
      | none => rfl
      | some old =>
        rw [hold] at h
        dsimp only at h ⊢
        cases hko : keysOf old with
        | nil => rfl
        | cons k2 ks =>
          rw [hko, deleteLoop_notObj_cons (JsVal.prim w) rfl k2 ks s.data] at h
          simp at h
    simp [hfl]

theorem claim_failed_iff_undefined_witness :
    ((updateData (initSys (none : Option (FetchFn Nat)) false) JsVal.undef).2
      = none) ∧
    ((updateData (initSys (none : Option (FetchFn Nat)) false)
        JsVal.undef).1.failedToGetData = true ↔
      (JsVal.undef : JsVal Nat) = JsVal.undef) :=
  ⟨by decide, claim_failed_iff_undefined _ _ (by decide)⟩

/-- C5: for every component with no fetch function, calculateData returns
the null sentinel, and over any number of calculateData/updateData
recomputation rounds starting from the freshly mounted state the
component data stays empty and the failure flag stays false. -/
theorem claim_no_fetch_keeps_empty {V : Type} (n : Nat) : ∀ (s : Sys V),
    s.getMeteorData = none → s.data = [] → s.failedToGetData = false →
    s.oldData = none →
    (roundsS n s).data = [] ∧ (roundsS n s).failedToGetData = false ∧
    (calculateData (roundsS n s)).2 = Except.ok JsVal.null := by
  induction n with
  | zero =>
    intro s h1 h2 h3 _
    refine ⟨h2, h3, ?_⟩
    show (calculateData s).2 = Except.ok JsVal.null
    rw [calculateData_noFetch s h1]
  | succ m ih =>
    intro s h1 h2 h3 h4
    obtain ⟨f1, f2, f3, f4⟩ := roundS_noFetch_fields s h1 h4
    exact ih (roundS s) f1 (f2.trans h2) f3 f4

theorem claim_no_fetch_keeps_empty_witness :
    (roundsS 3 (initSys (none : Option (FetchFn Nat)) false)).data = [] ∧
    (roundsS 3 (initSys (none : Option (FetchFn Nat)) false)).failedToGetData
      = false ∧
    (calculateData (roundsS 3 (initSys (none : Option (FetchFn Nat)) false))).2
      = Except.ok JsVal.null :=
  claim_no_fetch_keeps_empty 3 (initSys none false) rfl rfl rfl rfl

/-- C6: on every client-mode calculateData the first run of the tracked
computation installs the guard mutator and restores the original one
before returning, whatever the fetch does, so setState after the call
equals its value before; and a fetch that calls the mutator hits the
guard, whose endless-loop error is caught, logged, and turned into the
absence result, which the following updateData records as a failure. -/
theorem claim_setState_guard_restored {V : Type} (s : Sys V) (f : FetchFn V)
    (v : JsVal V) (hg : s.getMeteorData = some f) (hs : s.isServer = false) :
    (calculateData s).1.setState = s.setState ∧
    (f = FetchFn.callsSetState v →
      (calculateData s).2 = Except.ok JsVal.undef ∧
      (calculateData s).1.log = s.log ++ [errHead ++ endlessLoopMsg] ∧
      (updateData (calculateData s).1 JsVal.undef).1.failedToGetData = true) := by
  have hc := calculateData_client s f hg hs
  constructor
  · rw [hc]
  · intro hf
    subst hf
    refine ⟨?_, ?_, (updateData_undef_basic _).2.2⟩
    · rw [hc]
      rfl
    · rw [hc]
      rfl

theorem claim_setState_guard_restored_witness :
    (calculateData (initSys (some (FetchFn.callsSetState
        (JsVal.obj ([] : List (String × Nat))))) false)).1.setState
      = (initSys (some (FetchFn.callsSetState
        (JsVal.obj ([] : List (String × Nat))))) false).setState ∧
    (calculateData (initSys (some (FetchFn.callsSetState
        (JsVal.obj ([] : List (String × Nat))))) false)).2
      = Except.ok JsVal.undef ∧
    (calculateData (initSys (some (FetchFn.callsSetState
        (JsVal.obj ([] : List (String × Nat))))) false)).1.log
      = (initSys (some (FetchFn.callsSetState
        (JsVal.obj ([] : List (String × Nat))))) false).log
        ++ [errHead ++ endlessLoopMsg] ∧
    (updateData (calculateData (initSys (some (FetchFn.callsSetState
        (JsVal.obj ([] : List (String × Nat))))) false)).1
        JsVal.undef).1.failedToGetData = true := by
  have hw := claim_setState_guard_restored
    (initSys (some (FetchFn.callsSetState (JsVal.obj ([] : List (String × Nat)))))
      false)
    (FetchFn.callsSetState (JsVal.obj [])) (JsVal.obj []) rfl rfl
  obtain ⟨hrest, hgo⟩ := hw
  obtain ⟨ha, hb, hcc⟩ := hgo rfl
  exact ⟨hrest, ha, hb, hcc⟩

/-- C7: once dispose has run on a manager satisfying the one-live
invariant, no computation of the manager is live, every later chain of
source invalidations leaves the state unchanged, and in particular the
forced re-render counter never moves again. -/
theorem claim_dispose_no_forceUpdate {V : Type} (s : Sys V) (cs : List Nat)
    (h : Inv s) :
    (dispose s).liveComps = [] ∧
    List.foldl invalidate (dispose s) cs = dispose s ∧
    (List.foldl invalidate (dispose s) cs).forceUpdates = s.forceUpdates := by
  have hd := dispose_liveComps_of_Inv s h
  have hf := foldl_invalidate_of_empty cs (dispose s) hd
  exact ⟨hd, hf, by rw [hf, dispose_forceUpdates]⟩

theorem claim_dispose_no_forceUpdate_witness :
    (dispose ((calculateData (initSys (some (FetchFn.returnsVal
        (JsVal.obj ([] : List (String × Nat))))) false)).1)).liveComps = [] ∧
    List.foldl invalidate (dispose ((calculateData (initSys
        (some (FetchFn.returnsVal (JsVal.obj ([] : List (String × Nat)))))
        false)).1)) [0, 1, 5]
      = dispose ((calculateData (initSys (some (FetchFn.returnsVal
        (JsVal.obj ([] : List (String × Nat))))) false)).1) ∧
    (List.foldl invalidate (dispose ((calculateData (initSys
        (some (FetchFn.returnsVal (JsVal.obj ([] : List (String × Nat)))))
        false)).1)) [0, 1, 5]).forceUpdates
      = ((calculateData (initSys (some (FetchFn.returnsVal
        (JsVal.obj ([] : List (String × Nat))))) false)).1).forceUpdates :=
  claim_dispose_no_forceUpdate _ ([0, 1, 5])
    (Inv_calculateData _ (Inv_initSys _ false))

/-- C9: in client mode, two consecutive calculateData calls with no
intervening invalidation return the same snapshot outcome and leave
exactly one live computation handle, the one created by the second call. -/
theorem claim_calculateData_idem {V : Type} (s : Sys V) (f : FetchFn V)
    (hg : s.getMeteorData = some f) (hs : s.isServer = false) (h : Inv s) :
    (calculateData ((calculateData s).1)).2 = (calculateData s).2 ∧
    (calculateData ((calculateData s).1)).1.liveComps = [s.nextCompId + 1] ∧
    (calculateData ((calculateData s).1)).1.computation
      = some (s.nextCompId + 1) := by
  have h1 := calculateData_client s f hg hs
  have hg1 : (calculateData s).1.getMeteorData = some f := by rw [h1]; exact hg
  have hs1 : (calculateData s).1.isServer = false := by rw [h1]; exact hs
  have h2 := calculateData_client (calculateData s).1 f hg1 hs1
  have hlc1 : (calculateData s).1.liveComps = [s.nextCompId] := by
    rw [h1]
    dsimp only
    rw [stoppedLive_of_Inv s h]
    rfl
  have hcomp1 : (calculateData s).1.computation = some s.nextCompId := by
    rw [h1]
  have hst : stoppedLive (calculateData s).1 = [] := by
    unfold stoppedLive
    rw [hcomp1]
    dsimp only
    rw [hlc1]
    simp
  refine ⟨?_, ?_, ?_⟩
  · rw [h2]
    dsimp only
    rw [h1]
    dsimp only
    rw [fetchAndLog_fst f SetStateVal.guard
      ((fetchAndLog f SetStateVal.guard s.log).2) s.log]
  · rw [h2]
    dsimp only
    rw [hst, h1]
    rfl
  · rw [h2]
    dsimp only
    rw [h1]

theorem claim_calculateData_idem_witness :
    (calculateData ((calculateData (initSys (some (FetchFn.returnsVal
        (JsVal.obj ([] : List (String × Nat))))) false)).1)).2
      = (calculateData (initSys (some (FetchFn.returnsVal
        (JsVal.obj ([] : List (String × Nat))))) false)).2 ∧
    (calculateData ((calculateData (initSys (some (FetchFn.returnsVal
        (JsVal.obj ([] : List (String × Nat))))) false)).1)).1.liveComps
      = [(initSys (some (FetchFn.returnsVal
        (JsVal.obj ([] : List (String × Nat))))) false).nextCompId + 1] ∧
    (calculateData ((calculateData (initSys (some (FetchFn.returnsVal
        (JsVal.obj ([] : List (String × Nat))))) false)).1)).1.computation
      = some ((initSys (some (FetchFn.returnsVal
        (JsVal.obj ([] : List (String × Nat))))) false).nextCompId + 1) :=
  claim_calculateData_idem _ (FetchFn.returnsVal (JsVal.obj [])) rfl rfl
    (Inv_initSys _ false)

end ReactMeteorData
